import Mathlib

/-!
Verification of the docker-daemon client (package `dockerdaemon`).

The Go source is shallowly embedded: strings are Lean `String`s (Go byte
strings restricted to their character content), fallible functions return
`Except`, and the network is an oracle parameter `send : Request →
Except String HTTPResponse` standing for `ctxhttp.Do`: an `.error` result
models a transport/send failure, an `.ok` result carries the response
status code together with the outcome of reading the response body to EOF
(`ioutil.ReadAll`), which in the source is performed at most once per
response.
-/

namespace DockerDaemon

/-- Go constant `_defaultTimeout = 32 * time.Second`, expressed in seconds. -/
def defaultTimeoutSeconds : Nat := 32

/-- Value of `len(syscall.RawSockaddrUnix\x7b\x7d.Path)`: on Linux `Path` is `[108]int8`. -/
def rawSockaddrUnixPathLen : Nat := 108

/-- One call of the `Dial` closure: `net.DialTimeout(network, address,
timeout)` with the timeout in seconds. -/
structure DialCall where
  network : String
  address : String
  timeoutSeconds : Nat
deriving DecidableEq, Repr

/-- The fields of `http.Transport` that `parseHost` touches. A fresh
`new(http.Transport)` has compression enabled and no custom dial
function. `Dial` takes the network and address arguments and (in this
model) returns the description of the dial it performs. -/
structure Transport where
  DisableCompression : Bool
  Dial : Option (String → String → DialCall)

/-- The parse failures of `parseHost`, by the `fmt.Errorf` site that
produces them. -/
inductive ParseError where
  | invalidAddress (host : String)
  | urlParseError (msg : String)
  | pathTooLong (path : String)
  | unsupportedProtocol (protocol : String)
deriving DecidableEq, Repr

/-- The message text of each `fmt.Errorf` in `parseHost` (`%q` rendered as
plain double quotes; the socket paths of interest contain no escapes). -/
def ParseError.message : ParseError → String
  | .invalidAddress host => "unable to parse docker host `" ++ host ++ "`"
  | .urlParseError msg => msg
  | .pathTooLong path => "Unix socket path \"" ++ path ++ "\" is too long"
  | .unsupportedProtocol protocol => "Protocol " ++ protocol ++ " not supported"

/-- Core of `strings.SplitN(host, "://", 2)` on the character list: find
the first occurrence of `"://"`; `none` when there is none (Go returns the
one-element slice `[host]`), otherwise the text before and after it. -/
def findSep : List Char → Option (List Char × List Char)
  | [] => none
  | c :: rest =>
    if (c :: rest).take 3 = [':', '/', '/'] then
      some ([], (c :: rest).drop 3)
    else
      match findSep rest with
      | some (pre, post) => some (c :: pre, post)
      | none => none

/-- Result of `strings.SplitN(host, "://", 2)` restricted to the two cases
the source distinguishes. -/
def goSplitSep (s : String) : Option (String × String) :=
  match findSep s.toList with
  | none => none
  | some (pre, post) => some (pre.asString, post.asString)

/-- Go `strings.TrimPrefix(s, pre)`: drop `pre` when it is a prefix of `s`,
otherwise return `s` unchanged. -/
def goTrimPrefix (s pre : String) : String :=
  if pre.toList.isPrefixOf s.toList then
    (s.toList.drop pre.toList.length).asString
  else
    s

/-- Control characters that `url.Parse` rejects anywhere in the URL
(Go `stringContainsCTLByte`: below the space character, or DEL). -/
def isCtlChar (c : Char) : Bool := c.toNat < 32 || c.toNat == 127

/-- Value of a hexadecimal digit (`ishex`/`unhex` in net/url). -/
def unhexDigit (c : Char) : Option Nat :=
  if '0' ≤ c ∧ c ≤ '9' then some (c.toNat - '0'.toNat)
  else if 'a' ≤ c ∧ c ≤ 'f' then some (c.toNat - 'a'.toNat + 10)
  else if 'A' ≤ c ∧ c ≤ 'F' then some (c.toNat - 'A'.toNat + 10)
  else none

/-- Percent-unescaping (`unescape` in net/url): each `%` must be followed
by two hex digits, otherwise the parse fails; in host mode an escape below
0x80 other than `%25` is also rejected. Decoded escapes are recombined at
character rather than byte granularity, which agrees with Go for ASCII
escapes; the theorems below only quantify over escape-free inputs. -/
def unescapeChars (hostMode : Bool) : List Char → Except String (List Char)
  | [] => .ok []
  | c :: rest =>
    if c = '%' then
      match rest with
      | c1 :: c2 :: rest2 =>
        match unhexDigit c1, unhexDigit c2 with
        | some h1, some h2 =>
          if hostMode = true ∧ h1 < 8 ∧ ¬(c1 = '2' ∧ c2 = '5') then
            .error "invalid URL escape in host"
          else
            match unescapeChars hostMode rest2 with
            | .ok tail => .ok (Char.ofNat (16 * h1 + h2) :: tail)
            | .error e => .error e
        | _, _ => .error "invalid URL escape"
      | _ => .error "invalid URL escape"
    else
      match unescapeChars hostMode rest with
      | .ok tail => .ok (c :: tail)
      | .error e => .error e

/-- Split a list at the last occurrence of `sep` (`strings.LastIndex`):
`some (before, after)`, the separator itself in neither part. -/
def splitAtLast (sep : Char) : List Char → Option (List Char × List Char)
  | [] => none
  | c :: rest =>
    match splitAtLast sep rest with
    | some (pre, post) => some (c :: pre, post)
    | none => if c = sep then some ([], rest) else none

/-- Go `validOptionalPort`: empty, or a `:` followed by decimal digits. -/
def validOptionalPort (colonPort : List Char) : Bool :=
  match colonPort with
  | [] => true
  | c :: digits => c == ':' && digits.all (fun d => d.isDigit)

/-- Host parsing of net/url (its `parseHost`): a bracketed host needs a
closing bracket and a valid optional port after it; otherwise the text
after the last `:`, if any, must be a valid port; the host is then
percent-unescaped in host mode. (IPv6 zone identifiers `%25…` inside
brackets take a special decoding route in Go that is not distinguished
here; the theorems below stay on escape-free hosts.) -/
def parseGoHost (host : List Char) : Except String (List Char) :=
  if host.head? = some '[' then
    match splitAtLast ']' host with
    | none => .error "missing close bracket in host"
    | some pp =>
      if validOptionalPort pp.2 then unescapeChars true host
      else .error "invalid port after host"
  else
    match splitAtLast ':' host with
    | none => unescapeChars true host
    | some pp =>
      if pp.2.all (fun d => d.isDigit) then unescapeChars true host
      else .error "invalid port after host"

/-- Go `validUserinfo`: ASCII alphanumerics and the RFC 3986 userinfo
punctuation (`Char.ofNat 39` is the single-quote character). -/
def validUserinfoChar (c : Char) : Bool :=
  c.isAlpha || c.isDigit ||
    c ∈ ['-', '.', '_', ':', '~', '!', '$', '&', '(', ')', '*', '+',
         ',', ';', '=', '%', '@', Char.ofNat 39]

/-- Authority parsing of net/url (`parseAuthority`): the host is the text
after the last `@` and is parsed first; the userinfo before the `@` must
use only userinfo characters and unescape cleanly. Its decoded value is
discarded — the client consumes only Host and Path. -/
def parseAuthority (authority : List Char) : Except String (List Char) :=
  match splitAtLast '@' authority with
  | none => parseGoHost authority
  | some up =>
    match parseGoHost up.2 with
    | .error e => .error e
    | .ok host =>
      if up.1.all validUserinfoChar then
        match unescapeChars false up.1 with
        | .ok _ => .ok host
        | .error e => .error e
      else .error "net/url: invalid userinfo"

/-- The Host and Path results of `url.Parse("tcp://" + addr)`, with its
error cases, which source lines 81–83 propagate: control characters
anywhere fail the parse; the fragment after the first `#` is split off and
must unescape cleanly; the query after the first `?` is split off
unvalidated; the authority is the text before the first `/` of what
remains and goes through `parseAuthority`; the rest is the path,
percent-unescaped. Only Host and Path are consumed by `parseHost`. -/
def goURLParseTcp (addr : String) : Except String (String × String) :=
  let l := addr.toList
  if l.any isCtlChar then
    .error "net/url: invalid control character in URL"
  else
    match unescapeChars false ((l.dropWhile (fun c => c != '#')).drop 1) with
    | .error e => .error e
    | .ok _ =>
      let preQuery :=
        (l.takeWhile (fun c => c != '#')).takeWhile (fun c => c != '?')
      match parseAuthority (preQuery.takeWhile (fun c => c != '/')) with
      | .error e => .error e
      | .ok host =>
        match unescapeChars false (preQuery.dropWhile (fun c => c != '/')) with
        | .error e => .error e
        | .ok pathChars => .ok (host.asString, pathChars.asString)

/-- Characters a well-formed, escape-free `host:port` component may use:
no control characters, none of the delimiters `/ ? # @ %`, and no opening
bracket (bracketed IPv6 literals are handled by `parseGoHost` but the
well-formedness theorem quantifies over plain hosts). -/
def hostOkChar (c : Char) : Bool :=
  !isCtlChar c && c != '/' && c != '?' && c != '#' && c != '@' &&
    c != '%' && c != '['

/-- Characters a well-formed, escape-free path component may use: no
control characters and none of `? # %`. -/
def pathOkChar (c : Char) : Bool :=
  !isCtlChar c && c != '?' && c != '#' && c != '%'

/-- The port-suffix condition `parseGoHost` imposes on a plain host: the
text after the last `:`, when there is one, is all decimal digits. -/
def hostPortSuffixOk (l : List Char) : Bool :=
  match splitAtLast ':' l with
  | none => true
  | some pp => pp.2.all (fun d => d.isDigit)

/-- Function `parseHost`: parse a daemon address into the transport (standing for
the `http.Client` built around it), the effective host `addr`, and the
base path. -/
def parseHost (host : String) : Except ParseError (Transport × String × String) :=
  match goSplitSep host with
  | none => .error (.invalidAddress host)
  | some (protocol, addr) =>
    if protocol = "tcp" then
      match goURLParseTcp addr with
      | .error e => .error (.urlParseError e)
      | .ok hp =>
        .ok ({ DisableCompression := false, Dial := none }, hp.1, hp.2)
    else if protocol = "unix" then
      if addr.utf8ByteSize > rawSockaddrUnixPathLen then
        .error (.pathTooLong addr)
      else
        .ok ({ DisableCompression := true,
               Dial := some fun _ _ =>
                 { network := protocol, address := addr,
                   timeoutSeconds := defaultTimeoutSeconds } },
             addr, "")
    else
      .error (.unsupportedProtocol protocol)

/-- The `dockerClient` struct; `client` is the transport of the
`http.Client` built by `parseHost`. -/
structure dockerClient where
  version : String
  scheme : String
  addr : String
  basePath : String
  registry : String
  client : Transport

/-- Constructor `NewDockerClient`: wraps `parseHost` failures in the
"parse docker host" error, otherwise builds the client value. -/
def NewDockerClient (host scheme version registry : String) :
    Except String dockerClient :=
  match parseHost host with
  | .error err =>
      .error ("parse docker host `" ++ host ++ "`: " ++ err.message)
  | .ok (client, addr, basePath) =>
      .ok { version, scheme, addr, basePath, registry, client }

/-- The request value `post` hands to `ctxhttp.Do`: method and URL path,
the query values (`u.RawQuery` is their encoding; empty sets leave it
unset), the header map assigned by `req.Header = header`, the body bytes
(`nil` defaulted to the empty byte slice), the synthetic `req.Host`, and
the overridden `req.URL.Host` / `req.URL.Scheme`. `streamRespBody` records
the drain-on-success flag of the request descriptor. -/
structure Request where
  method : String
  path : String
  query : List (String × List String)
  header : List (String × List String)
  body : List Nat
  host : String
  urlHost : String
  urlScheme : String
  streamRespBody : Bool

/-- A daemon response as `post` consumes it: the status code, and the
result of `ioutil.ReadAll(resp.Body)` — `.error` when reading the body
fails, `.ok` with the full body text otherwise. -/
structure HTTPResponse where
  StatusCode : Nat
  bodyRead : Except String String

/-- The version-qualified API path of `post` (lines 119–125): with a
non-empty version, `basePath + "/v" + TrimPrefix(version, "v") + urlPath`;
with an empty version, `basePath + urlPath`. -/
def apiPathOf (basePath version urlPath : String) : String :=
  if version ≠ "" then
    basePath ++ "/v" ++ goTrimPrefix version "v" ++ urlPath
  else
    basePath ++ urlPath

/-- The request construction of `post` (lines 118–140). -/
def buildRequest (cli : dockerClient) (urlPath : String)
    (query header : List (String × List String))
    (body : Option (List Nat)) (streamRespBody : Bool) : Request :=
  { method := "POST"
    path := apiPathOf cli.basePath cli.version urlPath
    query := query
    header := header
    body := body.getD []
    host := "docker"
    urlHost := cli.addr
    urlScheme := cli.scheme
    streamRespBody := streamRespBody }

/-- The daemon error message of line 152. -/
def errPostingMsg (urlPath : String) (code : Nat) (errMsg : String) : String :=
  "Error posting to " ++ urlPath ++ ": code " ++ toString code ++
    ", err: " ++ errMsg

/-- The response classification of `post` (lines 147–162): a non-200
status reads the body into the daemon error (a failed read becomes the
"read error resp" error); a 200 status with the drain flag set reads the
body to EOF and turns a failed read into the "read resp body" error;
otherwise success. -/
def classifyResponse (urlPath : String) (streamRespBody : Bool)
    (resp : HTTPResponse) : Except String Unit :=
  if resp.StatusCode ≠ 200 then
    match resp.bodyRead with
    | .error e => .error ("read error resp: " ++ e)
    | .ok errMsg => .error (errPostingMsg urlPath resp.StatusCode errMsg)
  else if streamRespBody then
    match resp.bodyRead with
    | .error e => .error ("read resp body: " ++ e)
    | .ok _ => .ok ()
  else
    .ok ()

/-- Executor `post`: build the request, send it through the oracle, classify the
outcome. The first component is the trace of requests handed to
`ctxhttp.Do` during the call. -/
def post (cli : dockerClient) (urlPath : String)
    (query header : List (String × List String))
    (body : Option (List Nat)) (streamRespBody : Bool)
    (send : Request → Except String HTTPResponse) :
    List Request × Except String Unit :=
  let req := buildRequest cli urlPath query header body streamRespBody
  match send req with
  | .error e => ([req], .error ("send post request: " ++ e))
  | .ok resp => ([req], classifyResponse urlPath streamRespBody resp)

/-- Operation `ImagePull` (lines 105–112): one `post` to `/images/create` with
`fromImage=<registry>/<repo>` and `tag=<tag>`, an empty
`X-Registry-Auth` header, no body, and the drain flag set. -/
def ImagePull (cli : dockerClient) (repo tag : String)
    (send : Request → Except String HTTPResponse) :
    List Request × Except String Unit :=
  let fromImage := cli.registry ++ "/" ++ repo
  post cli "/images/create"
    [("fromImage", [fromImage]), ("tag", [tag])]
    [("X-Registry-Auth", [""])]
    none true send

end DockerDaemon

namespace DockerDaemon

/-! ### Helper lemmas about the address splitter and URL extraction -/

theorem findSep_append (l r : List Char) (hl : ':' ∉ l) :
    findSep (l ++ ':' :: '/' :: '/' :: r) = some (l, r) := by
  induction l with
  | nil => simp [findSep]
  | cons c l ih =>
    have hc : c ≠ ':' := fun h => hl (h ▸ List.mem_cons_self c l)
    have hl' : ':' ∉ l := fun h => hl (List.mem_cons_of_mem c h)
    rw [List.cons_append, findSep]
    have htake : ((c :: (l ++ ':' :: '/' :: '/' :: r)).take 3) ≠ [':', '/', '/'] := by
      intro h
      simp at h
      exact hc h.1
    rw [if_neg htake, ih hl']

theorem goSplitSep_scheme (scheme rest : String) (h : ':' ∉ scheme.toList) :
    goSplitSep (scheme ++ "://" ++ rest) = some (scheme, rest) := by
  have hdata : (scheme ++ "://" ++ rest).toList
      = scheme.toList ++ ':' :: '/' :: '/' :: rest.toList := by
    show (scheme ++ "://" ++ rest).data = _
    simp [String.data_append]
  rw [goSplitSep, hdata, findSep_append _ _ h]
  simp
  exact ⟨String.asString_toList scheme, String.asString_toList rest⟩

theorem goSplitSep_unix (p : String) :
    goSplitSep ("unix://" ++ p) = some ("unix", p) := by
  rw [show ("unix://" : String) = "unix" ++ "://" from rfl, goSplitSep_scheme]
  decide

theorem goSplitSep_tcp (p : String) :
    goSplitSep ("tcp://" ++ p) = some ("tcp", p) := by
  rw [show ("tcp://" : String) = "tcp" ++ "://" from rfl, goSplitSep_scheme]
  decide

theorem takeWhile_of_all {f : Char → Bool} {l : List Char}
    (h : ∀ c ∈ l, f c = true) : l.takeWhile f = l := by
  induction l with
  | nil => rfl
  | cons c l ih =>
    rw [List.takeWhile_cons, h c (List.mem_cons_self c l)]
    simp [ih fun d hd => h d (List.mem_cons_of_mem c hd)]

/-- The tcp branch of `parseHost`: the outcome of `url.Parse` decides
between the propagated parse error and the default-transport success. -/
theorem parseHost_tcp_cases (rest : String) :
    parseHost ("tcp://" ++ rest) =
      match goURLParseTcp rest with
      | .error e => .error (.urlParseError e)
      | .ok hp =>
        .ok ({ DisableCompression := false, Dial := none }, hp.1, hp.2) := by
  rw [parseHost, goSplitSep_tcp]
  cases hg : goURLParseTcp rest with
  | error e => simp [hg]
  | ok hp => simp [hg]

/-- Evaluation of `parseHost` on a unix address whose path fits the sockaddr
limit. -/
theorem parseHost_unix_ok (p : String)
    (h : p.utf8ByteSize ≤ rawSockaddrUnixPathLen) :
    parseHost ("unix://" ++ p) =
      .ok ({ DisableCompression := true,
             Dial := some fun _ _ =>
               { network := "unix", address := p, timeoutSeconds := 32 } },
        p, "") := by
  rw [parseHost, goSplitSep_unix]
  simp [defaultTimeoutSeconds, Nat.not_lt.mpr h]

theorem goTrimPrefix_v_of_v (rest : String) :
    goTrimPrefix ("v" ++ rest) "v" = rest := by
  have hdata : ("v" ++ rest).toList = 'v' :: rest.toList := by
    show ("v" ++ rest).data = _
    simp [String.data_append]
  rw [goTrimPrefix, hdata]
  simp [List.isPrefixOf]
  exact String.asString_toList rest

theorem goTrimPrefix_v_of_other (version : String)
    (h : version.toList.head? ≠ some 'v') :
    goTrimPrefix version "v" = version := by
  rw [goTrimPrefix]
  cases hl : version.toList with
  | nil => simp [List.isPrefixOf]
  | cons c t =>
    have hc : c ≠ 'v' := by
      intro hcv
      exact h (by rw [hl, hcv]; rfl)
    have : ('v' == c) = false := by
      simp only [beq_eq_false_iff_ne, ne_eq]
      exact fun hvc => hc hvc.symm
    simp [List.isPrefixOf, this]

theorem unescapeChars_cons_of_ne (m : Bool) (c : Char) (rest : List Char)
    (hc : c ≠ '%') :
    unescapeChars m (c :: rest) =
      match unescapeChars m rest with
      | .ok tail => .ok (c :: tail)
      | .error e => .error e := by
  cases rest with
  | nil => simp [unescapeChars, hc]
  | cons d r2 =>
    cases r2 with
    | nil => simp [unescapeChars, hc]
    | cons e r3 => simp [unescapeChars, hc]

theorem unescapeChars_of_no_escape {m : Bool} {l : List Char}
    (h : '%' ∉ l) : unescapeChars m l = .ok l := by
  induction l with
  | nil => rfl
  | cons c rest ih =>
    have hc : c ≠ '%' := fun hcp => h (hcp ▸ List.mem_cons_self c rest)
    have hrest : '%' ∉ rest := fun hm => h (List.mem_cons_of_mem c hm)
    rw [unescapeChars_cons_of_ne m c rest hc, ih hrest]

theorem splitAtLast_eq_none {sep : Char} {l : List Char} (h : sep ∉ l) :
    splitAtLast sep l = none := by
  induction l with
  | nil => rfl
  | cons c rest ih =>
    have hc : c ≠ sep := fun hcs => h (hcs ▸ List.mem_cons_self c rest)
    have hrest : sep ∉ rest := fun hm => h (List.mem_cons_of_mem c hm)
    simp only [splitAtLast, ih hrest, if_neg hc]

theorem hostOkChar_split {c : Char} (h : hostOkChar c = true) :
    isCtlChar c = false ∧ c ≠ '/' ∧ c ≠ '?' ∧ c ≠ '#' ∧ c ≠ '@' ∧
      c ≠ '%' ∧ c ≠ '[' := by
  simp only [hostOkChar, Bool.and_eq_true, Bool.not_eq_true', bne_iff_ne] at h
  exact ⟨h.1.1.1.1.1.1, h.1.1.1.1.1.2, h.1.1.1.1.2, h.1.1.1.2, h.1.1.2,
    h.1.2, h.2⟩

theorem pathOkChar_split {c : Char} (h : pathOkChar c = true) :
    isCtlChar c = false ∧ c ≠ '?' ∧ c ≠ '#' ∧ c ≠ '%' := by
  simp only [pathOkChar, Bool.and_eq_true, Bool.not_eq_true', bne_iff_ne] at h
  exact ⟨h.1.1.1, h.1.1.2, h.1.2, h.2⟩

theorem parseGoHost_ok (l : List Char)
    (hnb : l.head? ≠ some '[') (hnp : '%' ∉ l)
    (hport : hostPortSuffixOk l = true) :
    parseGoHost l = .ok l := by
  rw [parseGoHost, if_neg hnb]
  cases hsp : splitAtLast ':' l with
  | none =>
    simp only [hsp]
    exact unescapeChars_of_no_escape hnp
  | some pp =>
    simp only [hostPortSuffixOk, hsp] at hport
    simp only [hsp, if_pos hport]
    exact unescapeChars_of_no_escape hnp

theorem goURLParseTcp_wellformed (hostport path : String)
    (hhost : ∀ c ∈ hostport.toList, hostOkChar c = true)
    (hport : hostPortSuffixOk hostport.toList = true)
    (hpath : path = "" ∨
      ((∃ t, path.toList = '/' :: t) ∧
        ∀ c ∈ path.toList, pathOkChar c = true)) :
    goURLParseTcp (hostport ++ path) = .ok (hostport, path) := by
  have hdata : (hostport ++ path).toList = hostport.toList ++ path.toList := by
    show (hostport ++ path).data = _
    simp [String.data_append]
  have hh := fun c hc => hostOkChar_split (hhost c hc)
  have hAuth : parseAuthority hostport.toList = .ok hostport.toList := by
    rw [parseAuthority,
      splitAtLast_eq_none (fun hm => ((hh _ hm).2.2.2.2.1 rfl))]
    exact parseGoHost_ok _
      (fun hhd => ((hh _ (List.mem_of_mem_head? (by rw [hhd]; rfl))).2.2.2.2.2.2 rfl))
      (fun hm => ((hh _ hm).2.2.2.2.2.1 rfl)) hport
  rcases hpath with hE | ⟨⟨t, ht⟩, hpok⟩
  · subst hE
    have hL : (hostport ++ "").toList = hostport.toList := by
      rw [hdata, show ("" : String).toList = [] from rfl, List.append_nil]
    have hany : hostport.toList.any isCtlChar = false := by
      rw [List.any_eq_false]
      intro c hc
      simp [(hh c hc).1]
    have hhash : ∀ c ∈ hostport.toList, (c != '#') = true := fun c hc => by
      simp [(hh c hc).2.2.2.1]
    have hq : ∀ c ∈ hostport.toList, (c != '?') = true := fun c hc => by
      simp [(hh c hc).2.2.1]
    have hs : ∀ c ∈ hostport.toList, (c != '/') = true := fun c hc => by
      simp [(hh c hc).2.1]
    simp only [goURLParseTcp, hL, hany, Bool.false_eq_true, if_false,
      List.dropWhile_eq_nil_iff.mpr hhash, List.drop_nil,
      takeWhile_of_all hhash, takeWhile_of_all hq, takeWhile_of_all hs,
      List.dropWhile_eq_nil_iff.mpr hs, hAuth, unescapeChars]
    exact congrArg Except.ok
      (congrArg₂ Prod.mk (String.asString_toList hostport) rfl)
  · have hp := fun c hc => pathOkChar_split (hpok c hc)
    have hany : (hostport.toList ++ path.toList).any isCtlChar = false := by
      rw [List.any_eq_false]
      intro c hc
      rcases List.mem_append.mp hc with hc | hc
      · simp [(hh c hc).1]
      · simp [(hp c hc).1]
    have hhash : ∀ c ∈ hostport.toList ++ path.toList, (c != '#') = true := by
      intro c hc
      rcases List.mem_append.mp hc with hc | hc
      · simp [(hh c hc).2.2.2.1]
      · simp [(hp c hc).2.2.1]
    have hq : ∀ c ∈ hostport.toList ++ path.toList, (c != '?') = true := by
      intro c hc
      rcases List.mem_append.mp hc with hc | hc
      · simp [(hh c hc).2.2.1]
      · simp [(hp c hc).2.1]
    have hs : ∀ c ∈ hostport.toList, (c != '/') = true := fun c hc => by
      simp [(hh c hc).2.1]
    have htake : (hostport.toList ++ path.toList).takeWhile
        (fun c => c != '/') = hostport.toList := by
      rw [List.takeWhile_append_of_pos hs, ht]
      simp [List.takeWhile_cons]
    have hdrop : (hostport.toList ++ path.toList).dropWhile
        (fun c => c != '/') = path.toList := by
      rw [List.dropWhile_append_of_pos hs, ht]
      simp [List.dropWhile_cons]
    have hpesc : unescapeChars false path.toList = .ok path.toList :=
      unescapeChars_of_no_escape (fun hm => ((hp _ hm).2.2.2 rfl))
    simp only [goURLParseTcp, hdata, hany, Bool.false_eq_true, if_false,
      List.dropWhile_eq_nil_iff.mpr hhash, List.drop_nil,
      takeWhile_of_all hhash, takeWhile_of_all hq, htake, hdrop, hAuth,
      hpesc, unescapeChars]
    exact congrArg Except.ok
      (congrArg₂ Prod.mk (String.asString_toList hostport)
        (String.asString_toList path))

/-- Evaluation of `parseHost` on a unix address whose path exceeds the
sockaddr limit. -/
theorem parseHost_unix_long (p : String)
    (h : rawSockaddrUnixPathLen < p.utf8ByteSize) :
    parseHost ("unix://" ++ p) = .error (.pathTooLong p) := by
  rw [parseHost, goSplitSep_unix]
  simp [h]

end DockerDaemon

namespace DockerDaemon

/-! ### Further helper lemmas -/

theorem sep_infix_of_findSep {l : List Char} {pre post : List Char}
    (h : findSep l = some (pre, post)) : [':', '/', '/'] <:+: l := by
  induction l generalizing pre post with
  | nil => simp [findSep] at h
  | cons c rest ih =>
    rw [findSep] at h
    by_cases htake : (c :: rest).take 3 = [':', '/', '/']
    · exact (htake ▸ List.take_prefix 3 (c :: rest)).isInfix
    · rw [if_neg htake] at h
      cases hrec : findSep rest with
      | none => rw [hrec] at h; exact absurd h (by simp)
      | some pp => exact List.infix_cons (ih hrec)

theorem findSep_eq_none {l : List Char} (h : ¬ [':', '/', '/'] <:+: l) :
    findSep l = none := by
  cases hf : findSep l with
  | none => rfl
  | some pp =>
    exact absurd
      (sep_infix_of_findSep (show findSep l = some (pp.1, pp.2) by rw [hf])) h

/-- Lemma: `post` hands exactly one request to `ctxhttp.Do`, the one it builds. -/
theorem post_trace (cli : dockerClient) (urlPath : String)
    (query header : List (String × List String)) (body : Option (List Nat))
    (streamRespBody : Bool) (send : Request → Except String HTTPResponse) :
    (post cli urlPath query header body streamRespBody send).1 =
      [buildRequest cli urlPath query header body streamRespBody] := by
  simp only [post]
  cases send (buildRequest cli urlPath query header body streamRespBody) <;> rfl

/-- The middle of a three-part concatenation occurs in its text. -/
theorem middle_infix (a b c : String) : b.toList <:+: (a ++ b ++ c).toList :=
  ⟨a.toList, c.toList, by
    show a.data ++ b.data ++ c.data = (a ++ b ++ c).data
    simp [String.data_append]⟩

end DockerDaemon

namespace DockerDaemon

/-! ### Example values used by the witnesses -/

def exCli : dockerClient :=
  { version := "1.24", scheme := "http", addr := "localhost:2375",
    basePath := "", registry := "registry.example.com",
    client := { DisableCompression := false, Dial := none } }

def exRespOk : HTTPResponse := { StatusCode := 200, bodyRead := .ok "progress stream" }

def exSendOk : Request → Except String HTTPResponse := fun _ => .ok exRespOk

def exResp500 : HTTPResponse := { StatusCode := 500, bodyRead := .ok "no such image" }

def exSend500 : Request → Except String HTTPResponse := fun _ => .ok exResp500

/-! ### Claims -/

/-- C1: for a request executed with the drain-on-success flag set where the
daemon responds with HTTP 200, the executor returns success exactly when
the streamed body was read to EOF, and a failed body read yields the read
error instead of success. -/
theorem post_drain_on_success (cli : dockerClient) (urlPath : String)
    (query header : List (String × List String)) (body : Option (List Nat))
    (send : Request → Except String HTTPResponse) (resp : HTTPResponse)
    (hsend : send (buildRequest cli urlPath query header body true) = .ok resp)
    (h200 : resp.StatusCode = 200) :
    ((post cli urlPath query header body true send).2 = .ok () ↔
      ∃ content, resp.bodyRead = .ok content) ∧
    (∀ e, resp.bodyRead = .error e →
      (post cli urlPath query header body true send).2 =
        .error ("read resp body: " ++ e)) := by
  cases hb : resp.bodyRead with
  | ok c => simp [post, hsend, classifyResponse, h200, hb]
  | error e => simp [post, hsend, classifyResponse, h200, hb]

theorem post_drain_on_success_witness :
    ((post exCli "/images/create" [] [] none true exSendOk).2 = .ok () ↔
      ∃ content, exRespOk.bodyRead = .ok content) ∧
    (∀ e, exRespOk.bodyRead = .error e →
      (post exCli "/images/create" [] [] none true exSendOk).2 =
        .error ("read resp body: " ++ e)) :=
  post_drain_on_success exCli "/images/create" [] [] none exSendOk exRespOk rfl rfl

/-- C2: for a response with a status code other than 200, the executor
returns the daemon error carrying the operation path, the status code and
the daemon-supplied body text; a failed read of the error body yields the
distinct read error instead. -/
theorem post_non200_error (cli : dockerClient) (urlPath : String)
    (query header : List (String × List String)) (body : Option (List Nat))
    (flag : Bool) (send : Request → Except String HTTPResponse)
    (resp : HTTPResponse)
    (hsend : send (buildRequest cli urlPath query header body flag) = .ok resp)
    (hcode : resp.StatusCode ≠ 200) :
    (∀ msg, resp.bodyRead = .ok msg →
      (post cli urlPath query header body flag send).2 =
        .error (errPostingMsg urlPath resp.StatusCode msg) ∧
      urlPath.toList <:+: (errPostingMsg urlPath resp.StatusCode msg).toList ∧
      (toString resp.StatusCode).toList <:+:
        (errPostingMsg urlPath resp.StatusCode msg).toList ∧
      msg.toList <:+: (errPostingMsg urlPath resp.StatusCode msg).toList) ∧
    (∀ e, resp.bodyRead = .error e →
      (post cli urlPath query header body flag send).2 =
        .error ("read error resp: " ++ e)) := by
  constructor
  · intro msg hb
    refine ⟨?_, ?_, ?_, ?_⟩
    · simp [post, hsend, classifyResponse, hcode, hb]
    · rw [show errPostingMsg urlPath resp.StatusCode msg =
        "Error posting to " ++ urlPath ++
          (": code " ++ toString resp.StatusCode ++ ", err: " ++ msg) from by
        simp [errPostingMsg, String.append_assoc]]
      exact middle_infix _ _ _
    · rw [show errPostingMsg urlPath resp.StatusCode msg =
        ("Error posting to " ++ urlPath ++ ": code ") ++
          toString resp.StatusCode ++ (", err: " ++ msg) from by
        simp [errPostingMsg, String.append_assoc]]
      exact middle_infix _ _ _
    · rw [show errPostingMsg urlPath resp.StatusCode msg =
        ("Error posting to " ++ urlPath ++ ": code " ++
          toString resp.StatusCode ++ ", err: ") ++ msg ++ "" from by
        simp [errPostingMsg, String.append_assoc]]
      exact middle_infix _ _ _
  · intro e hb
    simp [post, hsend, classifyResponse, hcode, hb]

theorem post_non200_error_witness :
    (∀ msg, exResp500.bodyRead = .ok msg →
      (post exCli "/images/create" [] [] none true exSend500).2 =
        .error (errPostingMsg "/images/create" exResp500.StatusCode msg) ∧
      "/images/create".toList <:+:
        (errPostingMsg "/images/create" exResp500.StatusCode msg).toList ∧
      (toString exResp500.StatusCode).toList <:+:
        (errPostingMsg "/images/create" exResp500.StatusCode msg).toList ∧
      msg.toList <:+:
        (errPostingMsg "/images/create" exResp500.StatusCode msg).toList) ∧
    (∀ e, exResp500.bodyRead = .error e →
      (post exCli "/images/create" [] [] none true exSend500).2 =
        .error ("read error resp: " ++ e)) :=
  post_non200_error exCli "/images/create" [] [] none true exSend500 exResp500
    rfl (by decide)

/-- C3: `ImagePull` issues exactly one POST, to the `/images/create`
operation path, with query values `fromImage=<registry>/<repo>` and
`tag=<tag>`, an `X-Registry-Auth` header holding the empty string, and the
drain-on-success flag set. -/
theorem imagePull_single_request (cli : dockerClient) (repo tag : String)
    (send : Request → Except String HTTPResponse) :
    (ImagePull cli repo tag send).1 =
      [{ method := "POST"
         path := apiPathOf cli.basePath cli.version "/images/create"
         query := [("fromImage", [cli.registry ++ "/" ++ repo]), ("tag", [tag])]
         header := [("X-Registry-Auth", [""])]
         body := []
         host := "docker"
         urlHost := cli.addr
         urlScheme := cli.scheme
         streamRespBody := true }] := by
  simp only [ImagePull]
  rw [post_trace]
  rfl

/-- C8: every request the executor sends carries the synthetic `Host`
value "docker", and its URL host and scheme are the resolved effective
host and the configured scheme. -/
theorem post_synthetic_host (cli : dockerClient) (urlPath : String)
    (query header : List (String × List String)) (body : Option (List Nat))
    (flag : Bool) (send : Request → Except String HTTPResponse) :
    ∀ r ∈ (post cli urlPath query header body flag send).1,
      r.host = "docker" ∧ r.urlHost = cli.addr ∧ r.urlScheme = cli.scheme := by
  intro r hr
  rw [post_trace, List.mem_singleton] at hr
  subst hr
  exact ⟨rfl, rfl, rfl⟩

theorem post_synthetic_host_witness :
    (buildRequest exCli "/images/create" [] [] none true).host = "docker" ∧
    (buildRequest exCli "/images/create" [] [] none true).urlHost = exCli.addr ∧
    (buildRequest exCli "/images/create" [] [] none true).urlScheme =
      exCli.scheme :=
  post_synthetic_host exCli "/images/create" [] [] none true exSendOk
    (buildRequest exCli "/images/create" [] [] none true)
    (by rw [post_trace]; exact List.mem_singleton.mpr rfl)

end DockerDaemon

namespace DockerDaemon

/-- C4: with a non-empty configured version the request path is
base-path + "/v" + (the version with one leading "v" stripped if present)
+ operation path; with an empty version the path is base-path + operation
path with no version segment. -/
theorem post_versioned_path (cli : dockerClient) (urlPath : String)
    (query header : List (String × List String)) (body : Option (List Nat))
    (flag : Bool) (send : Request → Except String HTTPResponse) :
    ∀ r ∈ (post cli urlPath query header body flag send).1,
      (∀ rest, cli.version = "v" ++ rest →
        r.path = cli.basePath ++ "/v" ++ rest ++ urlPath) ∧
      (cli.version ≠ "" → cli.version.toList.head? ≠ some 'v' →
        r.path = cli.basePath ++ "/v" ++ cli.version ++ urlPath) ∧
      (cli.version = "" → r.path = cli.basePath ++ urlPath) := by
  intro r hr
  rw [post_trace, List.mem_singleton] at hr
  subst hr
  refine ⟨?_, ?_, ?_⟩
  · intro rest hv
    show apiPathOf cli.basePath cli.version urlPath = _
    have hne : ("v" ++ rest : String) ≠ "" := by
      intro h
      have hcl := congrArg String.toList h
      rw [show ("v" ++ rest).toList = 'v' :: rest.toList from by
        show ("v" ++ rest).data = _; simp [String.data_append]] at hcl
      exact List.cons_ne_nil _ _ (hcl.trans rfl)
    rw [apiPathOf, hv, if_pos hne, goTrimPrefix_v_of_v]
  · intro hne hhead
    show apiPathOf cli.basePath cli.version urlPath = _
    rw [apiPathOf, if_pos hne, goTrimPrefix_v_of_other _ hhead]
  · intro hv
    show apiPathOf cli.basePath cli.version urlPath = _
    rw [apiPathOf, if_neg (by simp [hv])]

theorem post_versioned_path_witness :
    (buildRequest exCli "/images/create" [] [] none true).path =
      exCli.basePath ++ "/v" ++ exCli.version ++ "/images/create" :=
  ((post_versioned_path exCli "/images/create" [] [] none true exSendOk
    (buildRequest exCli "/images/create" [] [] none true)
    (by rw [post_trace]; exact List.mem_singleton.mpr rfl)).2.1
    (by decide) (by decide))

/-- C10: a configured version string of exactly "v" yields a bare "/v"
segment in the request path; the version segment is omitted only when the
configured version string itself is empty. -/
theorem post_bare_v_segment (cli : dockerClient) (urlPath : String)
    (query header : List (String × List String)) (body : Option (List Nat))
    (flag : Bool) (send : Request → Except String HTTPResponse) :
    ∀ r ∈ (post cli urlPath query header body flag send).1,
      (cli.version = "v" → r.path = cli.basePath ++ "/v" ++ urlPath) ∧
      (cli.version ≠ "" → r.path ≠ cli.basePath ++ urlPath) := by
  intro r hr
  rw [post_trace, List.mem_singleton] at hr
  subst hr
  constructor
  · intro hv
    show apiPathOf cli.basePath cli.version urlPath = _
    rw [apiPathOf, hv, if_pos (by decide : ("v" : String) ≠ "")]
    rw [show goTrimPrefix "v" "v" = "" from rfl]
    rw [String.append_empty]
  · intro hne heq
    have heq' : apiPathOf cli.basePath cli.version urlPath =
        cli.basePath ++ urlPath := heq
    rw [apiPathOf, if_pos hne] at heq'
    have hlen := congrArg String.length heq'
    simp only [String.length_append] at hlen
    rw [show ("/v" : String).length = 2 from rfl] at hlen
    omega

def exCliV : dockerClient := { exCli with version := "v" }

theorem post_bare_v_segment_witness :
    (buildRequest exCliV "/images/create" [] [] none true).path =
      exCliV.basePath ++ "/v" ++ "/images/create" ∧
    (buildRequest exCliV "/images/create" [] [] none true).path ≠
      exCliV.basePath ++ "/images/create" :=
  ⟨(post_bare_v_segment exCliV "/images/create" [] [] none true exSendOk
      (buildRequest exCliV "/images/create" [] [] none true)
      (by rw [post_trace]; exact List.mem_singleton.mpr rfl)).1 rfl,
   (post_bare_v_segment exCliV "/images/create" [] [] none true exSendOk
      (buildRequest exCliV "/images/create" [] [] none true)
      (by rw [post_trace]; exact List.mem_singleton.mpr rfl)).2 (by decide)⟩

/-- C5: a `unix://` address whose socket path fits the sockaddr limit
resolves to a compression-disabled transport whose dial function ignores
its arguments and dials exactly that path over "unix" with the fixed
32-second timeout; a longer path fails with the oversize-path error. -/
theorem parseHost_unix_spec (p : String) :
    (p.utf8ByteSize ≤ rawSockaddrUnixPathLen →
      parseHost ("unix://" ++ p) =
        .ok ({ DisableCompression := true,
               Dial := some fun _ _ =>
                 { network := "unix", address := p,
                   timeoutSeconds := 32 } }, p, "")) ∧
    (rawSockaddrUnixPathLen < p.utf8ByteSize →
      parseHost ("unix://" ++ p) = .error (.pathTooLong p)) :=
  ⟨parseHost_unix_ok p, parseHost_unix_long p⟩

def exLongPath : String := (List.replicate 120 'a').asString

set_option maxRecDepth 10000 in
theorem parseHost_unix_spec_witness :
    parseHost ("unix://" ++ "/var/run/docker.sock") =
      .ok ({ DisableCompression := true,
             Dial := some fun _ _ =>
               { network := "unix", address := "/var/run/docker.sock",
                 timeoutSeconds := 32 } }, "/var/run/docker.sock", "") ∧
    parseHost ("unix://" ++ exLongPath) = .error (.pathTooLong exLongPath) :=
  ⟨(parseHost_unix_spec "/var/run/docker.sock").1 (by decide),
   (parseHost_unix_spec exLongPath).2 (by decide)⟩

/-- C6: a valid `tcp://host:port[/path]` address — escape-free host of
delimiter-free characters with an all-digits port suffix, and an absent or
`/`-led, query- and fragment-free path — resolves with effective host
equal to the URL's host component and base path equal to the URL's path
component (empty when the path is absent). -/
theorem parseHost_tcp_spec (hostport path : String)
    (hhost : ∀ c ∈ hostport.toList, hostOkChar c = true)
    (hport : hostPortSuffixOk hostport.toList = true)
    (hpath : path = "" ∨
      ((∃ t, path.toList = '/' :: t) ∧
        ∀ c ∈ path.toList, pathOkChar c = true)) :
    parseHost ("tcp://" ++ (hostport ++ path)) =
      .ok ({ DisableCompression := false, Dial := none }, hostport, path) := by
  rw [parseHost_tcp_cases,
    goURLParseTcp_wellformed hostport path hhost hport hpath]

theorem parseHost_tcp_spec_witness :
    parseHost ("tcp://" ++ ("localhost:2375" ++ "/base")) =
      .ok ({ DisableCompression := false, Dial := none },
        "localhost:2375", "/base") :=
  parseHost_tcp_spec "localhost:2375" "/base" (by decide) (by decide)
    (Or.inr ⟨⟨['b', 'a', 's', 'e'], rfl⟩, by decide⟩)

/-- C7: an address without the "://" separator, or with a scheme other
than "tcp" and "unix", makes host resolution — and hence client
construction — fail with an error and yields no transport. -/
theorem parseHost_invalid_spec (host scheme version registry : String) :
    (¬ ([':', '/', '/'] <:+: host.toList) →
      parseHost host = .error (.invalidAddress host) ∧
      NewDockerClient host scheme version registry =
        .error ("parse docker host `" ++ host ++ "`: " ++
          (ParseError.invalidAddress host).message)) ∧
    (∀ protocol addr, host = protocol ++ "://" ++ addr →
      ':' ∉ protocol.toList → protocol ≠ "tcp" → protocol ≠ "unix" →
      parseHost host = .error (.unsupportedProtocol protocol) ∧
      NewDockerClient host scheme version registry =
        .error ("parse docker host `" ++ host ++ "`: " ++
          (ParseError.unsupportedProtocol protocol).message)) := by
  constructor
  · intro hsep
    have hparse : parseHost host = .error (.invalidAddress host) := by
      rw [parseHost, goSplitSep, findSep_eq_none hsep]
    exact ⟨hparse, by rw [NewDockerClient, hparse]⟩
  · intro protocol addr heq hcolon htcp hunix
    subst heq
    have hparse : parseHost (protocol ++ "://" ++ addr) =
        .error (.unsupportedProtocol protocol) := by
      rw [parseHost, goSplitSep_scheme protocol addr hcolon]
      simp [htcp, hunix]
    exact ⟨hparse, by rw [NewDockerClient, hparse]⟩

theorem parseHost_invalid_spec_witness :
    (parseHost "localhost:2375" =
        .error (.invalidAddress "localhost:2375") ∧
      NewDockerClient "localhost:2375" "http" "1.24" "reg" =
        .error ("parse docker host `" ++ "localhost:2375" ++ "`: " ++
          (ParseError.invalidAddress "localhost:2375").message)) ∧
    (parseHost ("ftp" ++ "://" ++ "x") =
        .error (.unsupportedProtocol "ftp") ∧
      NewDockerClient ("ftp" ++ "://" ++ "x") "http" "1.24" "reg" =
        .error ("parse docker host `" ++ ("ftp" ++ "://" ++ "x") ++ "`: " ++
          (ParseError.unsupportedProtocol "ftp").message)) :=
  ⟨(parseHost_invalid_spec "localhost:2375" "http" "1.24" "reg").1 (by decide),
   (parseHost_invalid_spec ("ftp" ++ "://" ++ "x") "http" "1.24" "reg").2
     "ftp" "x" rfl (by decide) (by decide) (by decide)⟩

/-- C9: whenever a `tcp://` address resolves successfully, the returned
transport keeps the fresh-transport defaults: compression stays enabled
and no custom dial function is installed. -/
theorem parseHost_tcp_default_transport (rest : String) (tr : Transport)
    (a b : String) (h : parseHost ("tcp://" ++ rest) = .ok (tr, a, b)) :
    tr.DisableCompression = false ∧ tr.Dial = none := by
  rw [parseHost_tcp_cases] at h
  cases hg : goURLParseTcp rest with
  | error e =>
    rw [hg] at h
    exact absurd h (by simp)
  | ok hp =>
    rw [hg] at h
    simp only [Except.ok.injEq, Prod.mk.injEq] at h
    obtain ⟨htr, -⟩ := h
    rw [← htr]
    exact ⟨rfl, rfl⟩

theorem parseHost_tcp_default_transport_witness :
    ({ DisableCompression := false, Dial := none } : Transport).DisableCompression
        = false ∧
    ({ DisableCompression := false, Dial := none } : Transport).Dial = none :=
  parseHost_tcp_default_transport "localhost:2375"
    { DisableCompression := false, Dial := none } "localhost:2375" ""
    (by rw [parseHost_tcp_cases]; rfl)

end DockerDaemon
